import Mathlib

/-
Verification development for the hydex-youtubeapi repository.

The repository contains two Express servers:
  * src/unnamed/part_000 — the optimized server (cache, batch, direct-link);
  * src/index.js        — the plain server (retry logic on its GET download path).

The definitions below are a shallow embedding of the pure request-level logic
of both files.  External capabilities (the ytdl resolver, ffmpeg, the clock,
uuid generation) are passed in as explicit parameters or oracles; machine
integers are modelled as Nat (all quantities involved are small and
non-negative); fallible code returns Except.
-/

namespace YtApi

/-- Character class of the JS regex `[a-zA-Z0-9_-]` used by `validateVideoId`. -/
def isIdChar (c : Char) : Bool :=
  c.isAlphanum || c == '_' || c == '-'

/-- Embeds `validateVideoId` (src/unnamed/part_000 lines 113-116 and the inline
regex tests in src/index.js): the string matches `^[a-zA-Z0-9_-]{11}$`. -/
def validateVideoId (videoId : String) : Bool :=
  videoId.length == 11 && videoId.data.all isIdChar

/-- Character class of the JS `\w` (word character) regex atom: `[A-Za-z0-9_]`. -/
def isWordCharJS (c : Char) : Bool :=
  c.isAlphanum || c == '_'

/-- Character class of the JS `\s` regex atom, restricted to the ASCII
whitespace characters (space, tab, line feed, carriage return, vertical tab,
form feed); the inputs relevant to the claims are ASCII. -/
def isSpaceJS (c : Char) : Bool :=
  c == ' ' || c == '\t' || c == '\n' || c == '\r' || c == '\x0b' || c == '\x0c'

/-- Character class of the JS regex `[-\s]` used in the second replace of
`sanitizeFilename` in src/unnamed/part_000. -/
def isDashSpace (c : Char) : Bool :=
  c == '-' || isSpaceJS c

/-- Embeds `.replace(/[^\w\s-]/g, '')` of src/unnamed/part_000 line 48:
delete every character outside `[A-Za-z0-9_\s-]`. -/
def stripDisallowed (cs : List Char) : List Char :=
  cs.filter (fun c => isWordCharJS c || isSpaceJS c || c == '-')

/-- State-passing pass of `collapseRuns`: the flag records whether the
previous character belonged to a hyphen/whitespace run, so that each maximal
run contributes exactly one underscore. -/
def collapseRunsAux : Bool → List Char → List Char
  | _, [] => []
  | inRun, c :: cs =>
    if isDashSpace c then
      if inRun then collapseRunsAux true cs
      else '_' :: collapseRunsAux true cs
    else c :: collapseRunsAux false cs

/-- Embeds `.replace(/[-\s]+/g, '_')` of src/unnamed/part_000 line 49: every
maximal run of hyphens/whitespace becomes a single underscore. -/
def collapseRuns (cs : List Char) : List Char :=
  collapseRunsAux false cs

/-- Embeds `sanitizeFilename` of src/unnamed/part_000 lines 46-52:
strip, collapse runs to `_`, lowercase, truncate to 100 characters. -/
def sanitizeFilename (s : String) : String :=
  String.mk (((collapseRuns (stripDisallowed s.data)).map Char.toLower).take 100)

/-- Embeds `sanitizeFilename` of src/index.js lines 22-24:
`filename.replace(/[^a-z0-9]/gi, '_').toLowerCase()` — every character that is
not an ASCII letter or digit becomes an underscore; no collapsing and no
truncation. -/
def indexSanitizeFilename (s : String) : String :=
  String.mk (s.data.map (fun c => Char.toLower (if c.isAlphanum then c else '_')))

/-- Kind of a media format, as distinguished by `ytdl.filterFormats`
(`hasAudio`/`hasVideo` flags of the external resolver's format objects). -/
inductive FormatKind
  | audioOnly
  | videoOnly
  | muxed
deriving DecidableEq, Repr

/-- One media format descriptor of the resolved metadata (the fields the
endpoints read).  `audioBitrate` is `none` when the remote source omits it;
the JS code applies `parseInt(f.audioBitrate) || 0`, which maps a missing
field to 0, so the numeric value used by the selector is `audioBitrate.getD 0`. -/
structure MediaFormat where
  kind : FormatKind
  itag : Nat
  container : String
  codecs : String
  audioBitrate : Option Nat
  audioSampleRate : String
  url : String
deriving DecidableEq, Repr

/-- The `videoDetails` object of resolved metadata (the fields the endpoints
read). -/
structure VideoDetails where
  title : String
  authorName : String
  lengthSeconds : Nat
  viewCount : Nat
  description : String
  uploadDate : String
  category : String
deriving DecidableEq, Repr

/-- Resolved video metadata as returned by the external resolver. -/
structure VideoInfo where
  videoDetails : VideoDetails
  formats : List MediaFormat
deriving DecidableEq, Repr

/-- Embeds `ytdl.filterFormats(formats, kind)` of the external resolver:
keep the formats of the requested kind, in order. -/
def filterFormats (formats : List MediaFormat) (kind : FormatKind) : List MediaFormat :=
  formats.filter (fun f => f.kind == kind)

/-- Numeric bitrate used by the selector: `parseInt(f.audioBitrate) || 0`
(src/unnamed/part_000 lines 146-147); a missing bitrate counts as 0. -/
def parseBitrate (f : MediaFormat) : Nat :=
  f.audioBitrate.getD 0

/-- Embeds the `audioFormats.reduce(...)` of src/unnamed/part_000 lines
145-149.  A JS `reduce` with no initial accumulator starts from the first
element, so on the non-empty list `best :: rest` it is a left fold over
`rest` seeded with `best`; a strictly-greater bitrate replaces the
accumulator, so ties keep the first-seen maximum. -/
def reduceBest (best : MediaFormat) (rest : List MediaFormat) : MediaFormat :=
  rest.foldl (fun b c => if parseBitrate c > parseBitrate b then c else b) best

/-- Maximum numeric bitrate occurring in a format list (0 for the empty list). -/
def maxAudioBitrate (l : List MediaFormat) : Nat :=
  (l.map parseBitrate).foldl Nat.max 0

/-- Modelled from the spec's words (§4.4 `select_best_audio`): the first
format, scanning left to right, whose numeric bitrate equals the maximum —
the stable first-seen maximum.  This is the specification-side definition
that `reduceBest` is compared against. -/
def select_best_audio (l : List MediaFormat) : Option MediaFormat :=
  l.find? (fun f => parseBitrate f == maxAudioBitrate l)

/-- Cache TTL: `CACHE_TTL = 10 * 60 * 1000` milliseconds
(src/unnamed/part_000 line 37). -/
def CACHE_TTL : Nat := 10 * 60 * 1000

/-- Cache capacity bound: the literal `1000` of
`if (videoInfoCache.size > 1000)` (src/unnamed/part_000 line 104). -/
def MAX_CACHE : Nat := 1000

/-- One entry of `videoInfoCache`: the object
`{ data: videoInfo, timestamp: Date.now() }` stored at line 98-101. -/
structure CacheEntry where
  data : VideoInfo
  timestamp : Nat
deriving DecidableEq, Repr

/-- The `videoInfoCache` JS `Map`, modelled as its entry list in insertion
order (a JS `Map` iterates keys in insertion order; `set` on an existing key
keeps its position, `set` on a fresh key appends). -/
abbrev Cache := List (String × CacheEntry)

/-- Embeds `Map.get`: the value of the first (under unique keys, only)
matching key. -/
def mapGet : Cache → String → Option CacheEntry
  | [], _ => none
  | p :: t, k => if p.1 == k then some p.2 else mapGet t k

/-- Embeds `Map.has`. -/
def mapHas (c : Cache) (k : String) : Bool :=
  (mapGet c k).isSome

/-- Embeds `Map.set`: replace the value in place when the key is present,
otherwise append the new entry at the end of the insertion order. -/
def mapSet : Cache → String → CacheEntry → Cache
  | [], k, v => [(k, v)]
  | p :: t, k, v => if p.1 == k then (k, v) :: t else p :: mapSet t k v

/-- Embeds `videoInfoCache.delete(videoInfoCache.keys().next().value)`
(src/unnamed/part_000 lines 105-106): the first key in insertion order is the
head entry, so deleting it drops the head. -/
def evictOldest (c : Cache) : Cache :=
  c.tail

/-- Embeds the miss/expiry branch of `getCachedVideoInfo`
(src/unnamed/part_000 lines 89-109): one call to `ytdl.getInfo` (passed in as
the `resolve` outcome), store the result under the identifier with the current
timestamp, evict the oldest entry when the size exceeds the bound, return the
result.  The second component counts resolver invocations. -/
def fetchAndStore (cache : Cache) (now : Nat) (videoId : String)
    (resolve : Except String VideoInfo) :
    Except String (VideoInfo × Cache) × Nat :=
  match resolve with
  | Except.error e => (Except.error e, 1)
  | Except.ok info =>
    let c1 := mapSet cache videoId ⟨info, now⟩
    let c2 := if c1.length > MAX_CACHE then evictOldest c1 else c1
    (Except.ok (info, c2), 1)

/-- Embeds `getCachedVideoInfo` (src/unnamed/part_000 lines 81-110).  The
`videoUrl` argument of the source is derived from `videoId` and only forwarded
to the resolver, so it is absorbed into the `resolve` oracle.  On a fresh hit
(`now - timestamp < CACHE_TTL`, with JS number subtraction matching Nat
truncated subtraction for the in-range timestamps) the cached data is returned
with no resolver call. -/
def getCachedVideoInfo (cache : Cache) (now : Nat) (videoId : String)
    (resolve : Except String VideoInfo) :
    Except String (VideoInfo × Cache) × Nat :=
  match mapGet cache videoId with
  | some cached =>
    if now - cached.timestamp < CACHE_TTL then
      (Except.ok (cached.data, cache), 0)
    else
      fetchAndStore cache now videoId resolve
  | none => fetchAndStore cache now videoId resolve

/-- Response abstraction for endpoints where only the HTTP status and the
number of resolver invocations matter to the claims. -/
structure SimpleResponse where
  status : Nat
  calls : Nat
deriving DecidableEq, Repr

/-- Response of the video-info endpoint of src/unnamed/part_000: status,
resolver-call count, and the `cached` field of the JSON body (`none` when the
request failed before the body was built). -/
structure InfoResponse where
  status : Nat
  calls : Nat
  cachedFlag : Option Bool
deriving DecidableEq, Repr

/-- Response of a streaming download endpoint: status, resolver-call count,
the headers set with `res.set`, and the `error` field of a JSON error body. -/
structure DownloadResponse where
  status : Nat
  calls : Nat
  headers : List (String × String)
  bodyError : Option String
deriving DecidableEq, Repr

/-- The header object passed to `res.set` in src/unnamed/part_000 lines
201-207. -/
def downloadHeaders (sanitizedTitle : String) : List (String × String) :=
  [("Content-Type", "audio/mpeg"),
   ("Content-Disposition", "attachment; filename=\"" ++ sanitizedTitle ++ ".mp3\""),
   ("Access-Control-Allow-Origin", "*"),
   ("Cache-Control", "no-cache"),
   ("Connection", "keep-alive")]

/-- Embeds `GET /video-info/:videoId` of src/unnamed/part_000 lines 348-379:
validate, resolve through the cache, and report `cached:
videoInfoCache.has(videoId)` evaluated on the post-resolution cache state. -/
def part000VideoInfoHandler (cache : Cache) (now : Nat) (videoId : String)
    (resolve : Except String VideoInfo) : InfoResponse × Cache :=
  if !validateVideoId videoId then (⟨400, 0, none⟩, cache)
  else
    match getCachedVideoInfo cache now videoId resolve with
    | (Except.error _, n) => (⟨404, n, none⟩, cache)
    | (Except.ok (_, c'), n) => (⟨200, n, some (mapHas c' videoId)⟩, c')

/-- Embeds `GET /formats/:videoId` of src/unnamed/part_000 lines 381-429
(status and resolver-call count only). -/
def part000FormatsHandler (cache : Cache) (now : Nat) (videoId : String)
    (resolve : Except String VideoInfo) : SimpleResponse × Cache :=
  if !validateVideoId videoId then (⟨400, 0⟩, cache)
  else
    match getCachedVideoInfo cache now videoId resolve with
    | (Except.error _, n) => (⟨404, n⟩, cache)
    | (Except.ok (_, c'), n) => (⟨200, n⟩, c')

/-- Response of `GET /direct-link/:videoId`: status, resolver-call count, the
`directUrl` of the chosen format and the `expiresAt` timestamp. -/
structure DirectLinkResponse where
  status : Nat
  calls : Nat
  directUrl : Option String
  expiresAt : Option Nat
deriving DecidableEq, Repr

/-- Embeds `GET /direct-link/:videoId` of src/unnamed/part_000 lines 119-175:
validate, resolve through the cache, pick the best audio format with the
`reduce`, and answer with its URL plus a 6-hour expiry. -/
def part000DirectLinkHandler (cache : Cache) (now : Nat) (videoId : String)
    (resolve : Except String VideoInfo) : DirectLinkResponse × Cache :=
  if !validateVideoId videoId then (⟨400, 0, none, none⟩, cache)
  else
    match getCachedVideoInfo cache now videoId resolve with
    | (Except.error _, n) => (⟨500, n, none, none⟩, cache)
    | (Except.ok (info, c'), n) =>
      match filterFormats info.formats FormatKind.audioOnly with
      | [] => (⟨400, n, none, none⟩, c')
      | f :: fs =>
        (⟨200, n, some (reduceBest f fs).url, some (now + 6 * 60 * 60 * 1000)⟩, c')

/-- Embeds `GET /download-mp3/:videoId` of src/unnamed/part_000 lines 178-280
up to the start of streaming: validate, resolve through the cache (a failure
is caught at line 271 and answered 500), set the download headers at lines
201-207, and only then check the audio-format list — the 400 "No audio
formats available" JSON of lines 212-216 is sent on the response that already
carries those headers. -/
def part000DownloadHandler (cache : Cache) (now : Nat) (videoId : String)
    (resolve : Except String VideoInfo) : DownloadResponse × Cache :=
  if !validateVideoId videoId then
    (⟨400, 0, [], some "Invalid YouTube video ID format"⟩, cache)
  else
    match getCachedVideoInfo cache now videoId resolve with
    | (Except.error _, n) => (⟨500, n, [], some "Download failed"⟩, cache)
    | (Except.ok (info, c'), n) =>
      let hs := downloadHeaders (sanitizeFilename info.videoDetails.title)
      if (filterFormats info.formats FormatKind.audioOnly).length == 0 then
        (⟨400, n, hs, some "No audio formats available"⟩, c')
      else
        (⟨200, n, hs, none⟩, c')

/-- One batch item succeeds with this record (src/unnamed/part_000 lines
311-317). -/
structure BatchSuccess where
  videoId : String
  title : String
  filename : String
  downloadUrl : String
deriving DecidableEq, Repr

/-- One entry of the `failed` sequence of the batch response
(src/unnamed/part_000 lines 325-330). -/
structure BatchFailure where
  videoId : String
  error : String
deriving DecidableEq, Repr

/-- Response of `POST /batch-download`. -/
structure BatchResponse where
  status : Nat
  successful : List BatchSuccess
  failed : List BatchFailure
  total : Nat
deriving DecidableEq, Repr

/-- Embeds one item of the `videoIds.map(async ...)` of src/unnamed/part_000
lines 300-318: validation throws `Invalid video ID: <id>` before any cache or
resolver access, otherwise the item resolves through the cache and derives a
filename from the sanitized title plus the first 8 characters of a fresh uuid
(the `uid` oracle).  The second component counts resolver invocations. -/
def processBatchItem (videoId : String) (cache : Cache) (now : Nat)
    (resolve : Except String VideoInfo) (uid : String) :
    Except String BatchSuccess × Nat :=
  if !validateVideoId videoId then
    (Except.error ("Invalid video ID: " ++ videoId), 0)
  else
    match getCachedVideoInfo cache now videoId resolve with
    | (Except.error e, n) => (Except.error e, n)
    | (Except.ok (info, _), n) =>
      let filename := sanitizeFilename info.videoDetails.title ++ "_" ++ uid.take 8 ++ ".mp3"
      (Except.ok ⟨videoId, info.videoDetails.title, filename, "/downloads/" ++ filename⟩, n)

/-- Embeds `POST /batch-download` of src/unnamed/part_000 lines 283-345.
Items run concurrently over the shared cache with `Promise.allSettled`; each
item is modelled against the same starting cache state with its own resolver
outcome, which fixes the per-item results the aggregation then combines.
The `failed` list reproduces the source aggregation exactly: the rejected
results are filtered out first and the `index` of the subsequent `map` ranges
over that filtered list, so entry `i` of `failed` is paired with
`videoIds[i]`. -/
def batchDownloadHandler (videoIds : List String) (cache : Cache) (now : Nat)
    (resolve : String → Except String VideoInfo) (uid : String → String) :
    BatchResponse :=
  if videoIds.length == 0 then ⟨400, [], [], 0⟩
  else if videoIds.length > 10 then ⟨400, [], [], 0⟩
  else
    let results := videoIds.map (fun v => (processBatchItem v cache now (resolve v) (uid v)).1)
    let successful := results.filterMap (fun r => match r with
      | Except.ok s => some s
      | Except.error _ => none)
    let reasons := results.filterMap (fun r => match r with
      | Except.ok _ => none
      | Except.error e => some e)
    let failed := reasons.enum.map (fun p => ⟨videoIds.getD p.1 "", p.2⟩)
    ⟨200, successful, failed, videoIds.length⟩

/-- Embeds the retry loop of `GET /download-mp3/:videoId` in src/index.js
lines 140-156: `retries` starts at 3; each iteration performs one
`ytdl.getInfo` attempt (the `resolve` oracle indexed by attempt number); on
failure `retries` is decremented, the error is rethrown when it reaches 0, and
otherwise a fixed 2000 ms delay is awaited before the next attempt.  Returns
the final outcome, the number of attempts performed, and the list of delays
awaited.  The fuel-0 case is unreachable: the loop body always returns or
throws before `retries` reaches 0. -/
def retryLoop (resolve : Nat → Except String VideoInfo) :
    Nat → Nat → List Nat → Except String VideoInfo × Nat × List Nat
  | 0, attempts, delays => (Except.error "", attempts, delays)
  | r + 1, attempts, delays =>
    match resolve attempts with
    | Except.ok info => (Except.ok info, attempts + 1, delays)
    | Except.error e =>
      if r == 0 then (Except.error e, attempts + 1, delays)
      else retryLoop resolve r (attempts + 1) (delays ++ [2000])

/-- The metadata fetch of src/index.js `GET /download-mp3/:videoId`: the retry
loop entered with `retries = 3`, no attempts made, no delays awaited. -/
def indexGetInfoWithRetry (resolve : Nat → Except String VideoInfo) :
    Except String VideoInfo × Nat × List Nat :=
  retryLoop resolve 3 0 []

/-- The header object passed to `res.set` in src/index.js lines 164-168. -/
def indexDownloadHeaders (sanitizedTitle : String) : List (String × String) :=
  [("Content-Type", "audio/mpeg"),
   ("Content-Disposition", "attachment; filename=\"" ++ sanitizedTitle ++ ".mp3\""),
   ("Access-Control-Allow-Origin", "*")]

/-- Embeds `GET /download-mp3/:videoId` of src/index.js lines 118-241 up to
the start of streaming: validate, fetch metadata with the retry loop (an
exhausted retry throws to the catch at line 231, answered 500), set the
download headers, then check the audio-format list. -/
def indexDownloadGetHandler (videoId : String)
    (resolve : Nat → Except String VideoInfo) : DownloadResponse :=
  if !validateVideoId videoId then
    ⟨400, 0, [], some "Invalid YouTube video ID format"⟩
  else
    match indexGetInfoWithRetry resolve with
    | (Except.error _, n, _) => ⟨500, n, [], some "Internal server error"⟩
    | (Except.ok info, n, _) =>
      let hs := indexDownloadHeaders (indexSanitizeFilename info.videoDetails.title)
      if (filterFormats info.formats FormatKind.audioOnly).length == 0 then
        ⟨400, n, hs, some "No audio formats available for this video"⟩
      else
        ⟨200, n, hs, none⟩

/-- Embeds `POST /download-mp3` of src/index.js lines 42-115 up to resolution:
a missing or malformed identifier is rejected 400 before any resolution; a
single `ytdl.getInfo` attempt is made and its failure answered 404; the
subsequent conversion outcome is outside the scope of the claims, so a
successful resolution is reported as the 200 completion path. -/
def indexDownloadPostHandler (videoId : Option String)
    (resolve : Except String VideoInfo) : SimpleResponse :=
  match videoId with
  | none => ⟨400, 0⟩
  | some v =>
    if !validateVideoId v then ⟨400, 0⟩
    else
      match resolve with
      | Except.error _ => ⟨404, 1⟩
      | Except.ok _ => ⟨200, 1⟩

/-- Embeds `GET /video-info/:videoId` of src/index.js lines 266-287: no
validation of the identifier — `ytdl.getInfo` is attempted unconditionally and
its failure answered 404. -/
def indexVideoInfoHandler (_videoId : String)
    (resolve : Except String VideoInfo) : SimpleResponse :=
  match resolve with
  | Except.error _ => ⟨404, 1⟩
  | Except.ok _ => ⟨200, 1⟩

/-- Embeds `GET /formats/:videoId` of src/index.js lines 299-326: no
validation of the identifier — `ytdl.getInfo` is attempted unconditionally and
its failure answered 404. -/
def indexFormatsHandler (_videoId : String)
    (resolve : Except String VideoInfo) : SimpleResponse :=
  match resolve with
  | Except.error _ => ⟨404, 1⟩
  | Except.ok _ => ⟨200, 1⟩

/-- An audio-only sample format used in concrete evaluations. -/
def sampleFormat (itag : Nat) (br : Option Nat) : MediaFormat :=
  ⟨FormatKind.audioOnly, itag, "webm", "opus", br, "44100", "u"⟩

/-- Metadata rich enough to exercise the sanitizer and the selector. -/
def demoInfo : VideoInfo :=
  ⟨⟨"Artist: Song (Live) #1!", "Author", 212, 1000, "desc", "2020-01-01", "Music"⟩,
   [sampleFormat 1 (some 64)]⟩

/-- Metadata whose format list has an empty audio-only subset. -/
def noAudioInfo : VideoInfo :=
  ⟨demoInfo.videoDetails, [⟨FormatKind.videoOnly, 7, "mp4", "avc1", none, "0", "u"⟩]⟩

/-- A full cache of 1000 copies of one key, for concrete eviction runs. -/
def bigCache : Cache := List.replicate MAX_CACHE ("kkkkkkkkkkk", ⟨demoInfo, 0⟩)

/-- Resolver oracle for the batch evaluation: the valid identifier resolves,
everything else fails (and is in fact never reached, being rejected by
validation first). -/
def demoResolve : String → Except String VideoInfo :=
  fun v => if v == "aaaaaaaaaaa" then Except.ok demoInfo
    else Except.error "unreachable"

/-- Folding `Nat.max` stays below any common upper bound. -/
theorem foldl_max_le (l : List Nat) (a b : Nat) (ha : a ≤ b)
    (h : ∀ x ∈ l, x ≤ b) : l.foldl Nat.max a ≤ b := by
  induction l generalizing a with
  | nil => simpa using ha
  | cons x t ih =>
    exact ih _ (Nat.max_le.mpr ⟨ha, h x (by simp)⟩) (fun y hy => h y (by simp [hy]))

/-- The seed is below a `Nat.max` fold. -/
theorem le_foldl_max_init (l : List Nat) (a : Nat) : a ≤ l.foldl Nat.max a := by
  induction l generalizing a with
  | nil => simp
  | cons x t ih => exact le_trans (Nat.le_max_left a x) (ih _)

/-- Every member is below a `Nat.max` fold. -/
theorem le_foldl_max_mem (l : List Nat) (a x : Nat) (hx : x ∈ l) :
    x ≤ l.foldl Nat.max a := by
  induction l generalizing a with
  | nil => cases hx
  | cons y t ih =>
    rcases List.mem_cons.mp hx with h | h
    · subst h
      exact le_trans (Nat.le_max_right a x) (le_foldl_max_init t _)
    · exact ih _ h

/-- Structure of the JS `reduce` of src/unnamed/part_000 lines 145-149: the
returned format splits the input list into a strictly-smaller prefix and a
no-larger suffix — it is the first element attaining the running maximum. -/
theorem reduceBest_split (rest : List MediaFormat) : ∀ best : MediaFormat,
    ∃ ys zs, best :: rest = ys ++ reduceBest best rest :: zs ∧
      (∀ y ∈ ys, parseBitrate y < parseBitrate (reduceBest best rest)) ∧
      (∀ z ∈ zs, parseBitrate z ≤ parseBitrate (reduceBest best rest)) := by
  induction rest with
  | nil =>
    intro best
    exact ⟨[], [], rfl, by simp, by simp⟩
  | cons y t ih =>
    intro best
    by_cases h : parseBitrate y > parseBitrate best
    · have hred : reduceBest best (y :: t) = reduceBest y t := by
        simp [reduceBest, h]
      obtain ⟨as, bs, heq, hlt, hle⟩ := ih y
      have hyr : parseBitrate y ≤ parseBitrate (reduceBest y t) := by
        cases as with
        | nil =>
          injection heq with h1 _
          exact le_of_eq (congrArg parseBitrate h1)
        | cons a as' =>
          injection heq with h1 _
          exact le_of_lt (hlt y (by rw [h1]; simp))
      refine ⟨best :: as, bs, ?_, ?_, ?_⟩
      · rw [hred]
        simpa using heq
      · intro w hw
        rw [hred]
        rcases List.mem_cons.mp hw with h1 | h1
        · subst h1
          exact lt_of_lt_of_le h hyr
        · exact hlt w h1
      · rw [hred]
        exact hle
    · have hred : reduceBest best (y :: t) = reduceBest best t := by
        simp [reduceBest, h]
      obtain ⟨as, bs, heq, hlt, hle⟩ := ih best
      rw [hred]
      set r := reduceBest best t with hr
      cases as with
      | nil =>
        injection heq with h1 h2
        refine ⟨[], y :: bs, ?_, by simp, ?_⟩
        · rw [← h1, ← h2]
          exact (List.nil_append _).symm
        · intro z hz
          rcases List.mem_cons.mp hz with h1' | h1'
          · subst h1'
            rw [← h1]
            exact Nat.le_of_not_lt h
          · exact hle z h1'
      | cons a as' =>
        injection heq with h1 h2
        have hbestr : parseBitrate best < parseBitrate r := by
          apply hlt
          rw [h1]
          exact List.mem_cons_self a as'
        refine ⟨best :: y :: as', bs, ?_, ?_, hle⟩
        · rw [h2]
          simp
        · intro w hw
          rcases List.mem_cons.mp hw with h' | h'
          · subst h'
            exact hbestr
          rcases List.mem_cons.mp h' with h'' | h''
          · subst h''
            exact lt_of_le_of_lt (Nat.le_of_not_lt h) hbestr
          · exact hlt w (List.mem_cons_of_mem a h'')

/-- A `find?` over a list whose prefix fails the test returns the first
success. -/
theorem find?_first_true {α : Type} (p : α → Bool) (ys zs : List α) (r : α)
    (hys : ∀ y ∈ ys, p y = false) (hr : p r = true) :
    List.find? p (ys ++ r :: zs) = some r := by
  induction ys with
  | nil => simp [List.find?_cons_of_pos, hr]
  | cons a t ih =>
    have ha : p a = false := hys a (by simp)
    rw [List.cons_append, List.find?_cons_of_neg _ (by simp [ha])]
    exact ih (fun y hy => hys y (by simp [hy]))

/-- The maximum bitrate of a list whose members are all bounded by a member
`r` is the bitrate of `r`. -/
theorem maxAudioBitrate_eq (ys zs : List MediaFormat) (r : MediaFormat)
    (hall : ∀ x ∈ ys ++ r :: zs, parseBitrate x ≤ parseBitrate r) :
    maxAudioBitrate (ys ++ r :: zs) = parseBitrate r := by
  apply Nat.le_antisymm
  · apply foldl_max_le _ _ _ (Nat.zero_le _)
    intro x hx
    obtain ⟨f, hf, rfl⟩ := List.mem_map.mp hx
    exact hall f hf
  · exact le_foldl_max_mem _ _ _ (List.mem_map_of_mem parseBitrate (by simp))

/-- The code's `reduce` refines the spec's stable first-seen-maximum rule. -/
theorem select_best_audio_eq_reduce (x : MediaFormat) (xs : List MediaFormat) :
    select_best_audio (x :: xs) = some (reduceBest x xs) := by
  obtain ⟨ys, zs, heq, hlt, hle⟩ := reduceBest_split xs x
  have hall : ∀ w ∈ ys ++ reduceBest x xs :: zs, parseBitrate w ≤ parseBitrate (reduceBest x xs) := by
    intro w hw
    rcases List.mem_append.mp hw with h | h
    · exact le_of_lt (hlt w h)
    rcases List.mem_cons.mp h with h | h
    · exact le_of_eq (congrArg parseBitrate h)
    · exact hle w h
  have hmax : maxAudioBitrate (x :: xs) = parseBitrate (reduceBest x xs) := by
    rw [heq]
    exact maxAudioBitrate_eq ys zs _ hall
  unfold select_best_audio
  rw [hmax, heq]
  apply find?_first_true
  · intro y hy
    exact beq_eq_false_iff_ne.mpr (Nat.ne_of_lt (hlt y hy))
  · exact beq_self_eq_true _

/-- Claim C4: for every non-empty list of audio-only formats the selector
returns the stable left-to-right running maximum by numeric bitrate — the
first-seen format attaining the maximum, a missing bitrate counting as 0 —
and on the bitrate sequence [64, 160, 128, 160] it returns the first format
with bitrate 160. -/
theorem claim_C4_format_selector :
    (∀ (x : MediaFormat) (xs : List MediaFormat),
        select_best_audio (x :: xs) = some (reduceBest x xs)) ∧
    reduceBest (sampleFormat 1 (some 64))
        [sampleFormat 2 (some 160), sampleFormat 3 (some 128), sampleFormat 4 (some 160)] =
      sampleFormat 2 (some 160) ∧
    parseBitrate (sampleFormat 5 none) = 0 :=
  ⟨select_best_audio_eq_reduce, by decide, rfl⟩

/-- Setting a key makes it retrievable with the new value. -/
theorem mapGet_mapSet_self (c : Cache) (k : String) (v : CacheEntry) :
    mapGet (mapSet c k v) k = some v := by
  induction c with
  | nil => simp [mapSet, mapGet]
  | cons p t ih =>
    by_cases h : p.1 == k
    · simp [mapSet, h, mapGet]
    · simp [mapSet, h, mapGet, ih]

/-- Setting a present key replaces in place and keeps the size. -/
theorem length_mapSet_of_has (c : Cache) (k : String) (v : CacheEntry)
    (h : mapHas c k = true) : (mapSet c k v).length = c.length := by
  induction c with
  | nil => simp [mapHas, mapGet] at h
  | cons p t ih =>
    by_cases hp : p.1 == k
    · simp [mapSet, hp]
    · have : mapHas t k = true := by
        simpa [mapHas, mapGet, hp] using h
      simp [mapSet, hp, ih this]

/-- Setting an absent key appends the new entry at the end. -/
theorem mapSet_of_not_has (c : Cache) (k : String) (v : CacheEntry)
    (h : mapHas c k = false) : mapSet c k v = c ++ [(k, v)] := by
  induction c with
  | nil => simp [mapSet]
  | cons p t ih =>
    have hp : (p.1 == k) = false := by
      by_contra hc
      simp only [Bool.not_eq_false] at hc
      simp [mapHas, mapGet, hc] at h
    have : mapHas t k = false := by
      simpa [mapHas, mapGet, hp] using h
    simp [mapSet, hp, ih this]

/-- A key absent from a list is found in its one-element extension. -/
theorem mapGet_append_single (c : Cache) (k : String) (v : CacheEntry)
    (h : mapGet c k = none) : mapGet (c ++ [(k, v)]) k = some v := by
  induction c with
  | nil => simp [mapGet]
  | cons p t ih =>
    by_cases hp : p.1 == k
    · simp [mapGet, hp] at h
    · have : mapGet t k = none := by simpa [mapGet, hp] using h
      simp [mapGet, hp, ih this]

/-- A key absent from a list is absent from its tail. -/
theorem mapGet_tail_none (c : Cache) (k : String) (h : mapGet c k = none) :
    mapGet c.tail k = none := by
  cases c with
  | nil => simp [mapGet]
  | cons p t =>
    by_cases hp : p.1 == k
    · simp [mapGet, hp] at h
    · simpa [mapGet, hp] using h

/-- The miss/expiry branch of `getCachedVideoInfo` on a successful resolution:
exactly one resolver call, and the result is stored under the identifier with
the current timestamp and survives any eviction, as long as the cache respects
its capacity bound beforehand. -/
theorem fetchAndStore_stores (cache : Cache) (now : Nat) (videoId : String)
    (info : VideoInfo) (hlen : cache.length ≤ MAX_CACHE) :
    ∃ c', fetchAndStore cache now videoId (Except.ok info) =
        (Except.ok (info, c'), 1) ∧
      mapGet c' videoId = some ⟨info, now⟩ ∧ c'.length ≤ MAX_CACHE := by
  cases h : mapGet cache videoId with
  | some e =>
    have hhas : mapHas cache videoId = true := by simp [mapHas, h]
    have hlen1 : (mapSet cache videoId ⟨info, now⟩).length = cache.length :=
      length_mapSet_of_has cache videoId ⟨info, now⟩ hhas
    have hnogt : ¬ (mapSet cache videoId ⟨info, now⟩).length > MAX_CACHE := by
      rw [hlen1]
      exact Nat.not_lt.mpr hlen
    refine ⟨mapSet cache videoId ⟨info, now⟩, ?_, mapGet_mapSet_self _ _ _, ?_⟩
    · simp [fetchAndStore, if_neg hnogt]
    · rw [hlen1]
      exact hlen
  | none =>
    have hhas : mapHas cache videoId = false := by simp [mapHas, h]
    have hset : mapSet cache videoId ⟨info, now⟩ = cache ++ [(videoId, ⟨info, now⟩)] :=
      mapSet_of_not_has cache videoId ⟨info, now⟩ hhas
    by_cases hgt : (cache ++ [(videoId, (⟨info, now⟩ : CacheEntry))]).length > MAX_CACHE
    · have hlen1000 : cache.length = MAX_CACHE := by
        simp only [List.length_append, List.length_cons, List.length_nil] at hgt
        omega
      cases cache with
      | nil => simp [MAX_CACHE] at hlen1000
      | cons p t =>
        refine ⟨t ++ [(videoId, ⟨info, now⟩)], ?_, ?_, ?_⟩
        · have hgt' : MAX_CACHE < t.length + 1 + 1 := by
            have h1 : t.length + 1 = MAX_CACHE := by simpa using hlen1000
            omega
          simp [fetchAndStore, hset, evictOldest, hgt']
        · apply mapGet_append_single
          have := mapGet_tail_none (p :: t) videoId h
          simpa using this
        · have : t.length + 1 = MAX_CACHE := by simpa using hlen1000
          simp only [List.length_append, List.length_cons, List.length_nil]
          omega
    · refine ⟨cache ++ [(videoId, ⟨info, now⟩)], ?_, mapGet_append_single _ _ _ h, ?_⟩
      · have hng : ¬ MAX_CACHE < cache.length + 1 := by simpa using hgt
        simp [fetchAndStore, hset, hng]
      · exact Nat.le_of_not_lt hgt

/-- Claim C5: a lookup whose stored entry has timestamp `t` with
`now - t < 10 minutes` returns the cached metadata with no resolver call; a
lookup on a miss or an expired entry invokes the resolver once, stores the
result under the identifier with the current timestamp, and returns it. -/
theorem claim_C5_cache_ttl :
    (∀ (cache : Cache) (now : Nat) (id : String) (r : Except String VideoInfo)
        (e : CacheEntry), mapGet cache id = some e →
        now - e.timestamp < CACHE_TTL →
        getCachedVideoInfo cache now id r = (Except.ok (e.data, cache), 0)) ∧
    (∀ (cache : Cache) (now : Nat) (id : String) (info : VideoInfo),
        cache.length ≤ MAX_CACHE →
        (∀ e, mapGet cache id = some e → CACHE_TTL ≤ now - e.timestamp) →
        ∃ c', getCachedVideoInfo cache now id (Except.ok info) =
            (Except.ok (info, c'), 1) ∧
          mapGet c' id = some ⟨info, now⟩) := by
  constructor
  · intro cache now id r e he hf
    simp [getCachedVideoInfo, he, hf]
  · intro cache now id info hlen hstale
    cases h : mapGet cache id with
    | none =>
      obtain ⟨c', hfs, hget, _⟩ := fetchAndStore_stores cache now id info hlen
      exact ⟨c', by simp [getCachedVideoInfo, h, hfs], hget⟩
    | some e =>
      have hs := hstale e h
      obtain ⟨c', hfs, hget, _⟩ := fetchAndStore_stores cache now id info hlen
      exact ⟨c', by simp [getCachedVideoInfo, h, if_neg (Nat.not_lt.mpr hs), hfs], hget⟩

/-- Witness for C5: a fresh hit at time 1 on an entry of timestamp 0 makes no
resolver call; a miss on the empty cache resolves once and stores the entry. -/
theorem claim_C5_cache_ttl_witness :
    getCachedVideoInfo [("aaaaaaaaaaa", ⟨demoInfo, 0⟩)] 1 "aaaaaaaaaaa"
        (Except.error "x") =
      (Except.ok (demoInfo, [("aaaaaaaaaaa", ⟨demoInfo, 0⟩)]), 0) ∧
    ∃ c', getCachedVideoInfo [] 5 "aaaaaaaaaaa" (Except.ok demoInfo) =
        (Except.ok (demoInfo, c'), 1) ∧
      mapGet c' "aaaaaaaaaaa" = some ⟨demoInfo, 5⟩ :=
  ⟨claim_C5_cache_ttl.1 [("aaaaaaaaaaa", ⟨demoInfo, 0⟩)] 1 "aaaaaaaaaaa"
      (Except.error "x") ⟨demoInfo, 0⟩ (by decide) (by decide),
   claim_C5_cache_ttl.2 [] 5 "aaaaaaaaaaa" demoInfo (by decide)
     (fun e he => by simp [mapGet] at he)⟩

/-- A key different from the replicated one is not in a replicated cache. -/
theorem mapGet_replicate_ne (n : Nat) (k k' : String) (v : CacheEntry)
    (h : (k == k') = false) :
    mapGet (List.replicate n (k, v)) k' = none := by
  induction n with
  | zero => simp [List.replicate, mapGet]
  | succ m ih => simp [List.replicate, mapGet, h, ih]

/-- Claim C6: when the cache holds 1000 entries and a distinct new identifier
is inserted, the evicted entry is the oldest-inserted one (the head of the
insertion order — FIFO, not LRU); a fresh read leaves the cache unchanged; and
after the insertion the cache again holds at most 1000 entries. -/
theorem claim_C6_fifo_eviction :
    (∀ (cache : Cache) (now : Nat) (id : String) (info : VideoInfo),
        cache.length = MAX_CACHE → mapHas cache id = false →
        getCachedVideoInfo cache now id (Except.ok info) =
          (Except.ok (info, cache.tail ++ [(id, ⟨info, now⟩)]), 1) ∧
        (cache.tail ++ [(id, (⟨info, now⟩ : CacheEntry))]).length ≤ MAX_CACHE) ∧
    (∀ (cache : Cache) (now : Nat) (id : String) (r : Except String VideoInfo)
        (e : CacheEntry), mapGet cache id = some e →
        now - e.timestamp < CACHE_TTL →
        (getCachedVideoInfo cache now id r).1 = Except.ok (e.data, cache)) := by
  constructor
  · intro cache now id info hlen hmiss
    have hnone : mapGet cache id = none := by
      cases h : mapGet cache id with
      | none => rfl
      | some e => simp [mapHas, h] at hmiss
    have hset : mapSet cache id ⟨info, now⟩ = cache ++ [(id, ⟨info, now⟩)] :=
      mapSet_of_not_has cache id ⟨info, now⟩ hmiss
    have hgt : (cache ++ [(id, (⟨info, now⟩ : CacheEntry))]).length > MAX_CACHE := by
      simp [hlen]
    cases cache with
    | nil => simp [MAX_CACHE] at hlen
    | cons p t =>
      constructor
      · have hgt' : MAX_CACHE < t.length + 1 + 1 := by
          have h1 : t.length + 1 = MAX_CACHE := by simpa using hlen
          omega
        simp [getCachedVideoInfo, hnone, fetchAndStore, hset, evictOldest, hgt']
      · have : t.length + 1 = MAX_CACHE := by simpa using hlen
        simp only [List.tail_cons, List.length_append, List.length_cons, List.length_nil]
        omega
  · intro cache now id r e he hf
    simp [getCachedVideoInfo, he, hf]

/-- Witness for C6: inserting a fresh identifier into the 1000-entry
`bigCache` evicts exactly the head entry, and a fresh read of a one-entry
cache leaves it unchanged. -/
theorem claim_C6_fifo_eviction_witness :
    getCachedVideoInfo bigCache 5 "aaaaaaaaaaa" (Except.ok demoInfo) =
      (Except.ok (demoInfo, bigCache.tail ++ [("aaaaaaaaaaa", ⟨demoInfo, 5⟩)]), 1) ∧
    (getCachedVideoInfo [("bbbbbbbbbbb", ⟨demoInfo, 2⟩)] 3 "bbbbbbbbbbb"
        (Except.error "x")).1 =
      Except.ok (demoInfo, [("bbbbbbbbbbb", ⟨demoInfo, 2⟩)]) :=
  ⟨(claim_C6_fifo_eviction.1 bigCache 5 "aaaaaaaaaaa" demoInfo
      (by simp [bigCache])
      (by
        have h := mapGet_replicate_ne MAX_CACHE "kkkkkkkkkkk" "aaaaaaaaaaa"
          ⟨demoInfo, 0⟩ (by decide)
        simp [mapHas, bigCache, h])).1,
   claim_C6_fifo_eviction.2 [("bbbbbbbbbbb", ⟨demoInfo, 2⟩)] 3 "bbbbbbbbbbb"
     (Except.error "x") ⟨demoInfo, 2⟩ (by decide) (by decide)⟩

/-- Claim C9: on the very first request for an identifier (a cache miss) the
video-info endpoint still reports `cached = true`: the resolution helper
inserts the entry into the cache before the flag is computed from cache
membership, so the flag reports presence-after-resolution, not a lookup hit. -/
theorem claim_C9_cached_flag_on_miss :
    ∀ (cache : Cache) (now : Nat) (id : String) (info : VideoInfo),
      cache.length ≤ MAX_CACHE → validateVideoId id = true →
      mapHas cache id = false →
      ((part000VideoInfoHandler cache now id (Except.ok info)).1).cachedFlag =
        some true := by
  intro cache now id info hlen hv hmiss
  have hnone : mapGet cache id = none := by
    cases h : mapGet cache id with
    | none => rfl
    | some e => simp [mapHas, h] at hmiss
  obtain ⟨c', hfs, hget, _⟩ := fetchAndStore_stores cache now id info hlen
  simp [part000VideoInfoHandler, hv, getCachedVideoInfo, hnone, hfs, mapHas, hget]

/-- Witness for C9: the first request for a valid identifier against the
empty cache reports `cached = true`. -/
theorem claim_C9_cached_flag_on_miss_witness :
    ((part000VideoInfoHandler [] 0 "aaaaaaaaaaa" (Except.ok demoInfo)).1).cachedFlag =
      some true :=
  claim_C9_cached_flag_on_miss [] 0 "aaaaaaaaaaa" demoInfo (by decide) (by decide)
    (by decide)

/-- Claim C10: in the optimized streaming-download endpoint the audio/mpeg
content type, the attachment content disposition and the other download
headers are set before the audio-format availability check, so the 400
"No audio formats available" JSON error is produced on a response object that
already carries those download headers. -/
theorem claim_C10_headers_before_format_check :
    ∀ (cache : Cache) (now : Nat) (id : String) (r : Except String VideoInfo)
      (info : VideoInfo) (c' : Cache) (n : Nat),
      validateVideoId id = true →
      getCachedVideoInfo cache now id r = (Except.ok (info, c'), n) →
      filterFormats info.formats FormatKind.audioOnly = [] →
      (part000DownloadHandler cache now id r).1 =
        ⟨400, n, downloadHeaders (sanitizeFilename info.videoDetails.title),
          some "No audio formats available"⟩ ∧
      ("Content-Type", "audio/mpeg") ∈
        (part000DownloadHandler cache now id r).1.headers ∧
      ("Content-Disposition",
          "attachment; filename=\"" ++ sanitizeFilename info.videoDetails.title ++ ".mp3\"")
        ∈ (part000DownloadHandler cache now id r).1.headers := by
  intro cache now id r info c' n hv hres hfmt
  have h1 : (part000DownloadHandler cache now id r).1 =
      ⟨400, n, downloadHeaders (sanitizeFilename info.videoDetails.title),
        some "No audio formats available"⟩ := by
    simp [part000DownloadHandler, hv, hres, hfmt]
  refine ⟨h1, ?_, ?_⟩ <;> rw [h1] <;> simp [downloadHeaders]

/-- Witness for C10: a metadata result with only a video-only format makes the
streaming download answer 400 while carrying the download headers. -/
theorem claim_C10_headers_before_format_check_witness :
    (part000DownloadHandler [] 0 "aaaaaaaaaaa" (Except.ok noAudioInfo)).1 =
      ⟨400, 1, downloadHeaders (sanitizeFilename noAudioInfo.videoDetails.title),
        some "No audio formats available"⟩ :=
  (claim_C10_headers_before_format_check [] 0 "aaaaaaaaaaa" (Except.ok noAudioInfo)
    noAudioInfo [("aaaaaaaaaaa", ⟨noAudioInfo, 0⟩)] 1 (by decide) (by rfl)
    (by decide)).1

/-- Counterexample to C2 as stated: src/index.js's video-info and formats
endpoints never validate the identifier — for the malformed identifier "!"
each attempts one resolution and surfaces the failure as 404, not as a 400
client error before resolver access. -/
theorem claim_C2_counterexample :
    validateVideoId "!" = false ∧
    indexVideoInfoHandler "!" (Except.error "boom") = ⟨404, 1⟩ ∧
    indexFormatsHandler "!" (Except.error "boom") = ⟨404, 1⟩ := by
  decide

/-- Claim C2 (amended): every identifier-accepting endpoint of the optimized
server (direct-link, streaming download, video-info, formats, each batch
item) and both download endpoints of src/index.js reject a string failing the
11-character [A-Za-z0-9_-] check with a 400 client error and zero resolver or
cache accesses; src/index.js's video-info and formats endpoints instead skip
validation and always attempt one resolution. -/
theorem claim_C2_validation_gate :
    ∀ (id : String), validateVideoId id = false →
      ∀ (cache : Cache) (now : Nat) (r : Except String VideoInfo)
        (rr : Nat → Except String VideoInfo) (uid : String),
        part000VideoInfoHandler cache now id r = (⟨400, 0, none⟩, cache) ∧
        part000FormatsHandler cache now id r = (⟨400, 0⟩, cache) ∧
        part000DirectLinkHandler cache now id r = (⟨400, 0, none, none⟩, cache) ∧
        part000DownloadHandler cache now id r =
          (⟨400, 0, [], some "Invalid YouTube video ID format"⟩, cache) ∧
        processBatchItem id cache now r uid =
          (Except.error ("Invalid video ID: " ++ id), 0) ∧
        indexDownloadGetHandler id rr =
          ⟨400, 0, [], some "Invalid YouTube video ID format"⟩ ∧
        indexDownloadPostHandler (some id) r = ⟨400, 0⟩ ∧
        (indexVideoInfoHandler id r).calls = 1 ∧
        (indexFormatsHandler id r).calls = 1 := by
  intro id hv cache now r rr uid
  refine ⟨?_, ?_, ?_, ?_, ?_, ?_, ?_, ?_, ?_⟩
  · simp [part000VideoInfoHandler, hv]
  · simp [part000FormatsHandler, hv]
  · simp [part000DirectLinkHandler, hv]
  · simp [part000DownloadHandler, hv]
  · simp [processBatchItem, hv]
  · simp [indexDownloadGetHandler, hv]
  · simp [indexDownloadPostHandler, hv]
  · cases r <;> simp [indexVideoInfoHandler]
  · cases r <;> simp [indexFormatsHandler]

/-- Witness for the amended C2 at the malformed identifier "!". -/
theorem claim_C2_validation_gate_witness :
    validateVideoId "!" = false ∧
    part000VideoInfoHandler [] 0 "!" (Except.error "boom") = (⟨400, 0, none⟩, []) :=
  ⟨by decide,
   (claim_C2_validation_gate "!" (by decide) [] 0 (Except.error "boom")
     (fun _ => Except.error "boom") "u").1⟩

/-- The attempt counter of the retry loop never exceeds the remaining fuel. -/
theorem retryLoop_attempts_le (resolve : Nat → Except String VideoInfo) :
    ∀ (r a : Nat) (ds : List Nat), (retryLoop resolve r a ds).2.1 ≤ a + r := by
  intro r
  induction r with
  | zero => intro a ds; simp [retryLoop]
  | succ m ih =>
    intro a ds
    simp only [retryLoop]
    cases h : resolve a with
    | ok info => simp
    | error e =>
      by_cases hm : m == 0
      · simp [hm]
      · simp only [hm, if_false, Bool.false_eq_true]
        calc (retryLoop resolve m (a + 1) (ds ++ [2000])).2.1
            ≤ (a + 1) + m := ih _ _
          _ = a + (m + 1) := by omega

/-- Every delay the retry loop appends is the fixed 2000 ms. -/
theorem retryLoop_delays (resolve : Nat → Except String VideoInfo) :
    ∀ (r a : Nat) (ds : List Nat), (∀ d ∈ ds, d = 2000) →
      ∀ d ∈ (retryLoop resolve r a ds).2.2, d = 2000 := by
  intro r
  induction r with
  | zero => intro a ds hds; simpa [retryLoop] using hds
  | succ m ih =>
    intro a ds hds
    simp only [retryLoop]
    cases h : resolve a with
    | ok info => simpa using hds
    | error e =>
      by_cases hm : m == 0
      · simpa [hm] using hds
      · simp only [hm, if_false, Bool.false_eq_true]
        apply ih
        intro d hd
        rcases List.mem_append.mp hd with h' | h'
        · exact hds d h'
        · simpa using h'

/-- When the retry loop surfaces a failure it has exhausted all its fuel. -/
theorem retryLoop_error_attempts (resolve : Nat → Except String VideoInfo) :
    ∀ (r a : Nat) (ds : List Nat) (e : String), 0 < r →
      (retryLoop resolve r a ds).1 = Except.error e →
      (retryLoop resolve r a ds).2.1 = a + r := by
  intro r
  induction r with
  | zero => intro a ds e h; omega
  | succ m ih =>
    intro a ds e hpos herr
    simp only [retryLoop] at herr ⊢
    cases h : resolve a with
    | ok info =>
      rw [h] at herr
      simp at herr
    | error e' =>
      rw [h] at herr
      by_cases hm : m == 0
      · have h0 : m = 0 := by simpa using hm
        simp [hm, h0]
      · have hm' : 0 < m := Nat.pos_of_ne_zero (by simpa using hm)
        have herr' : (retryLoop resolve m (a + 1) (ds ++ [2000])).1 = Except.error e := by
          simpa [hm] using herr
        have hgoal : (retryLoop resolve m (a + 1) (ds ++ [2000])).2.1 = a + (m + 1) := by
          rw [ih (a + 1) (ds ++ [2000]) e hm' herr']
          omega
        simpa [hm] using hgoal

/-- A success on the current attempt ends the retry loop at once. -/
theorem retryLoop_ok (resolve : Nat → Except String VideoInfo) (r a : Nat)
    (ds : List Nat) (info : VideoInfo) (h : resolve a = Except.ok info) :
    retryLoop resolve (r + 1) a ds = (Except.ok info, a + 1, ds) := by
  simp [retryLoop, h]

/-- Counterexample to C3 as stated: the optimized server's streaming download
endpoint performs exactly one metadata-fetch attempt on an always-failing
resolver and surfaces the failure as a 500 — no retry is applied on that
streaming download code path, whereas the retry loop of src/index.js makes 3
attempts on the same resolver. -/
theorem claim_C3_counterexample :
    (part000DownloadHandler [] 0 "aaaaaaaaaaa" (Except.error "network")).1.calls = 1 ∧
    (part000DownloadHandler [] 0 "aaaaaaaaaaa" (Except.error "network")).1.status = 500 ∧
    (indexGetInfoWithRetry (fun _ => Except.error "network")).2.1 = 3 := by
  decide

/-- Claim C3 (amended): the bounded retry policy — at most 3 attempts, fixed
2000 ms delays, failure surfaced only after the fuel is exhausted, immediate
stop on a first-attempt success — applies exactly to the metadata fetch of
src/index.js's GET streaming download endpoint; the optimized server's
streaming download, video-info, formats and batch call sites, and
src/index.js's video-info and formats endpoints, each perform exactly one
resolution attempt and surface a failure directly. -/
theorem claim_C3_retry_asymmetry :
    (∀ (resolve : Nat → Except String VideoInfo),
        (indexGetInfoWithRetry resolve).2.1 ≤ 3 ∧
        (∀ d ∈ (indexGetInfoWithRetry resolve).2.2, d = 2000) ∧
        (∀ e, (indexGetInfoWithRetry resolve).1 = Except.error e →
          (indexGetInfoWithRetry resolve).2.1 = 3) ∧
        (∀ info, resolve 0 = Except.ok info →
          indexGetInfoWithRetry resolve = (Except.ok info, 1, []))) ∧
    (∀ (cache : Cache) (now : Nat) (id : String) (e : String) (uid : String),
        validateVideoId id = true → mapGet cache id = none →
        (part000DownloadHandler cache now id (Except.error e)).1 =
          ⟨500, 1, [], some "Download failed"⟩ ∧
        (part000VideoInfoHandler cache now id (Except.error e)).1 = ⟨404, 1, none⟩ ∧
        (part000FormatsHandler cache now id (Except.error e)).1 = ⟨404, 1⟩ ∧
        processBatchItem id cache now (Except.error e) uid = (Except.error e, 1)) ∧
    (∀ (id : String) (e : String),
        indexVideoInfoHandler id (Except.error e) = ⟨404, 1⟩ ∧
        indexFormatsHandler id (Except.error e) = ⟨404, 1⟩) := by
  refine ⟨?_, ?_, ?_⟩
  · intro resolve
    refine ⟨?_, ?_, ?_, ?_⟩
    · exact retryLoop_attempts_le resolve 3 0 []
    · exact retryLoop_delays resolve 3 0 [] (by simp)
    · intro e he
      exact retryLoop_error_attempts resolve 3 0 [] e (by omega) he
    · intro info h
      exact retryLoop_ok resolve 2 0 [] info h
  · intro cache now id e uid hv hmiss
    refine ⟨?_, ?_, ?_, ?_⟩ <;>
      simp [part000DownloadHandler, part000VideoInfoHandler, part000FormatsHandler,
        processBatchItem, getCachedVideoInfo, hmiss, fetchAndStore, hv]
  · intro id e
    exact ⟨rfl, rfl⟩

/-- Witness for the amended C3: a failing single-attempt call site and the
always-failing retry loop. -/
theorem claim_C3_retry_asymmetry_witness :
    validateVideoId "aaaaaaaaaaa" = true ∧
    (part000VideoInfoHandler [] 7 "aaaaaaaaaaa" (Except.error "net")).1 =
      ⟨404, 1, none⟩ ∧
    (∀ e, (indexGetInfoWithRetry (fun _ => Except.error "net")).1 = Except.error e →
      (indexGetInfoWithRetry (fun _ => Except.error "net")).2.1 = 3) :=
  ⟨by decide,
   (claim_C3_retry_asymmetry.2.1 [] 7 "aaaaaaaaaaa" "net" "u" (by decide)
     (by decide)).2.1,
   (claim_C3_retry_asymmetry.1 (fun _ => Except.error "net")).2.2.1⟩

/-- Claim C1 evaluated at a failing input: in the batch
["aaaaaaaaaaa", "!!!"] the first item succeeds and the second fails
validation, yet the single `failed` record pairs the successful item's
identifier "aaaaaaaaaaa" with the failing item's error message, and no
failure record carries the failed identifier "!!!" — the aggregation reads
`videoIds[index]` with `index` ranging over the filtered rejected list, not
over the original positions. -/
theorem claim_C1_batch_failed_mispairing :
    (batchDownloadHandler ["aaaaaaaaaaa", "!!!"] [] 0 demoResolve
        (fun _ => "12345678")).failed =
      [⟨"aaaaaaaaaaa", "Invalid video ID: !!!"⟩] ∧
    (∀ f ∈ (batchDownloadHandler ["aaaaaaaaaaa", "!!!"] [] 0 demoResolve
        (fun _ => "12345678")).failed, f.videoId ≠ "!!!") ∧
    (batchDownloadHandler ["aaaaaaaaaaa", "!!!"] [] 0 demoResolve
        (fun _ => "12345678")).successful.length = 1 ∧
    (batchDownloadHandler ["aaaaaaaaaaa", "!!!"] [] 0 demoResolve
        (fun _ => "12345678")).total = 2 := by
  decide

/-- Counterexample to C7 as stated: src/index.js's sanitizer maps the claim's
own example to "artist__song__live___1_" — every disallowed character becomes
its own underscore, with no collapsing — and not to "artist_song_live_1". -/
theorem claim_C7_counterexample :
    indexSanitizeFilename "Artist: Song (Live) #1!" = "artist__song__live___1_" ∧
    indexSanitizeFilename "Artist: Song (Live) #1!" ≠ "artist_song_live_1" := by
  decide

/-- Claim C7 (amended): the optimized server's sanitizer behaves as claimed —
it maps "Artist: Song (Live) #1!" to "artist_song_live_1" and truncates every
output to at most 100 characters (a run of 150 letters keeps exactly its
first 100) — while src/index.js's sanitizer instead replaces each character
outside [A-Za-z0-9] with its own underscore and lowercases, never collapsing
runs and never truncating: its output always has the input's length. -/
theorem claim_C7_sanitizer :
    sanitizeFilename "Artist: Song (Live) #1!" = "artist_song_live_1" ∧
    (∀ s : String, (sanitizeFilename s).length ≤ 100) ∧
    sanitizeFilename (String.mk (List.replicate 150 'a')) =
      String.mk (List.replicate 100 'a') ∧
    (∀ s : String, (indexSanitizeFilename s).length = s.length) := by
  refine ⟨by decide, ?_, by decide, ?_⟩
  · intro s
    have h : (sanitizeFilename s).length =
        (((collapseRuns (stripDisallowed s.data)).map Char.toLower).take 100).length :=
      rfl
    rw [h, List.length_take]
    exact Nat.min_le_left _ _
  · intro s
    have h : (indexSanitizeFilename s).length =
        (s.data.map (fun c => Char.toLower (if c.isAlphanum then c else '_'))).length :=
      rfl
    rw [h, List.length_map]
    rfl

end YtApi
